import Mathlib

/-!
# Verification of the agentle WhatsApp bot and API-resilience layer

Shallow embedding, in Lean 4, of the parts of the `agentle` repository that the
specification's claims are about:

* `agentle/agents/whatsapp/models/whatsapp_session.py` — the `WhatsAppSession`
  model with message batching and spam protection
  (`add_pending_message`, `clear_pending_messages`, `update_rate_limiting`,
  `should_process_batch`, `start_batch_processing`, `finish_batch_processing`);
* `agentle/agents/whatsapp/whatsapp_bot.py` — the batch-flush path
  (`_process_message_batch`), the message-count accounting in
  `handle_message` / `_process_single_message`, and `_split_message`;
* `agentle/agents/apis/rate_limiter.py` — `RateLimiter.acquire`;
* `agentle/agents/apis/circuit_breaker.py` — `CircuitBreaker.call`,
  `_on_success`, `_on_failure`.

Modelling conventions:

* Python `datetime` values are modelled as rational numbers of seconds since a
  minute-aligned epoch.  `t.second` is then `⌊t⌋ % 60`, the start of `t`'s
  minute is `⌊t⌋ - t.second`, and `(a - b).total_seconds()` is plain
  subtraction.  `datetime.replace(second=s, microsecond=0)` keeps the minute
  and raises `ValueError` unless `0 ≤ s ≤ 59`; raising is modelled by
  returning `none`.
* Message payloads (`dict[str, Any]`) are opaque; we model them as `ℕ`.
* Methods that in Python mutate `self` become functions `Session → Session`
  (paired with the returned value where there is one); `datetime.now()`
  becomes an explicit `now` argument.
* Effectful steps that may raise are driven by explicit Boolean fault flags,
  and `try/except/finally` control flow is encoded by explicit sequencing.
-/

namespace Agentle

/-! ## Datetime model -/

/-- Timestamps: rational seconds since a minute-aligned epoch. -/
abbrev DT := ℚ

/-- The `second` component of a datetime (Python `t.second`): whole seconds
within the current minute, always in `0..59`. -/
def dtSecond (t : DT) : ℤ := ⌊t⌋ % 60

/-- The start of `t`'s minute (what `t.replace(second=0, microsecond=0)`
denotes). -/
def dtMinuteStart (t : DT) : ℤ := ⌊t⌋ - dtSecond t

/-- Python `t.replace(second=s, microsecond=0)`: keeps the minute, sets the
second to `s` and drops sub-second precision.  `datetime.replace` raises
`ValueError` unless `0 ≤ s ≤ 59`; `none` models the raise. -/
def dtReplaceSecond (t : DT) (s : ℤ) : Option DT :=
  if 0 ≤ s ∧ s ≤ 59 then some ((dtMinuteStart t + s : ℤ) : ℚ) else none

/-! ## WhatsAppSession

From `agentle/agents/whatsapp/models/whatsapp_session.py`.  Only the fields
the modelled methods read or write are kept; identity fields (`session_id`,
`phone_number`, `contact`, …) play no role in any claim. -/

/-- Opaque message payload (`dict[str, Any]` in the source). -/
abbrev Msg := ℕ

/-- The mutable state of a `WhatsAppSession`. -/
structure Session where
  last_activity : DT
  message_count : ℕ
  is_processing : Bool
  pending_messages : List Msg
  last_batch_started_at : Option DT
  batch_processing_timeout_at : Option DT
  last_message_at : Option DT
  messages_in_current_minute : ℕ
  current_minute_start : Option DT
  is_rate_limited : Bool
  rate_limit_until : Option DT
  deriving Repr, DecidableEq

namespace Session

/-- A freshly created session (the model's field defaults), created at `t0`. -/
def init (t0 : DT) : Session where
  last_activity := t0
  message_count := 0
  is_processing := false
  pending_messages := []
  last_batch_started_at := none
  batch_processing_timeout_at := none
  last_message_at := none
  messages_in_current_minute := 0
  current_minute_start := none
  is_rate_limited := false
  rate_limit_until := none

/-- `WhatsAppSession.add_pending_message`: append to the pending queue and
touch `last_activity` (`datetime.now()` becomes the explicit `now`). -/
def add_pending_message (s : Session) (m : Msg) (now : DT) : Session :=
  { s with pending_messages := s.pending_messages ++ [m], last_activity := now }

/-- `WhatsAppSession.clear_pending_messages`: snapshot the queue, empty it,
and return the snapshot. -/
def clear_pending_messages (s : Session) : List Msg × Session :=
  (s.pending_messages, { s with pending_messages := [] })

/-- `WhatsAppSession.update_rate_limiting`.  Returns the updated session and
`some b` for a normal return of `b`, or `none` when
`now.replace(second=now.second + cooldown_seconds, microsecond=0)` raises
`ValueError` (`now.second + cooldown_seconds > 59`).  On a raise the
mutations already performed — including `is_rate_limited := true` — persist,
as they do on the Python object. -/
def update_rate_limiting (s : Session) (max_messages_per_minute cooldown_seconds : ℕ)
    (now : DT) : Session × Option Bool :=
  -- Check if rate limit has expired
  let s :=
    if s.is_rate_limited && (match s.rate_limit_until with
        | some u => decide (u ≤ now)
        | none => false) then
      { s with is_rate_limited := false, rate_limit_until := none,
               messages_in_current_minute := 0, current_minute_start := none }
    else s
  -- If currently rate limited, deny
  if s.is_rate_limited then (s, some false)
  else
    -- Reset minute counter if needed
    let s :=
      if (match s.current_minute_start with
          | none => true
          | some c => decide (60 ≤ now - c)) then
        { s with current_minute_start := some now, messages_in_current_minute := 0 }
      else s
    -- Increment message count
    let s := { s with messages_in_current_minute := s.messages_in_current_minute + 1 }
    -- Check if rate limit should be triggered
    if max_messages_per_minute < s.messages_in_current_minute then
      let s := { s with is_rate_limited := true }
      match dtReplaceSecond now (dtSecond now + cooldown_seconds) with
      | some u => ({ s with rate_limit_until := some u }, some false)
      | none => (s, none)
    else
      ({ s with last_message_at := some now }, some true)

/-- `WhatsAppSession.should_process_batch`.  `max_wait_seconds` is accepted
but, as in the source, never read.  `last_activity` is a non-optional
`datetime` (always truthy), so the source's `if self.last_activity:` guard
always takes the first branch. -/
def should_process_batch (s : Session) (batch_delay_seconds _max_wait_seconds : ℚ)
    (now : DT) : Bool :=
  if s.pending_messages.isEmpty then false
  else if (match s.batch_processing_timeout_at with
      | some t => decide (t ≤ now)
      | none => false) then true
  else decide (batch_delay_seconds ≤ now - s.last_activity)

/-- `WhatsAppSession.start_batch_processing`: set the processing flag and the
forced-flush deadline `now + max_wait_seconds`. -/
def start_batch_processing (s : Session) (max_wait_seconds : ℚ) (now : DT) : Session :=
  { s with is_processing := true,
           last_batch_started_at := some now,
           batch_processing_timeout_at := some (now + max_wait_seconds) }

/-- `WhatsAppSession.finish_batch_processing`: clear the processing flag and
both batch timestamps. -/
def finish_batch_processing (s : Session) : Session :=
  { s with is_processing := false,
           last_batch_started_at := none,
           batch_processing_timeout_at := none }

end Session

end Agentle

namespace Agentle

/-! ## C4: `should_process_batch` decision table -/

/-- **C4.** For every session state and every `now`: `should_process_batch`
returns `false` when `pending_messages` is empty; otherwise it returns `true`
when `batch_processing_timeout_at` is set and `now ≥ batch_processing_timeout_at`;
otherwise it returns `true` exactly when
`now - last_activity ≥ batch_delay_seconds`. -/
theorem should_process_batch_decision (s : Session) (delay maxw now : ℚ) :
    (s.pending_messages = [] →
      s.should_process_batch delay maxw now = false) ∧
    (s.pending_messages ≠ [] →
      ∀ t, s.batch_processing_timeout_at = some t → t ≤ now →
        s.should_process_batch delay maxw now = true) ∧
    (s.pending_messages ≠ [] →
      (s.batch_processing_timeout_at = none ∨
        ∃ t, s.batch_processing_timeout_at = some t ∧ now < t) →
      (s.should_process_batch delay maxw now = true ↔
        delay ≤ now - s.last_activity)) := by
  refine ⟨?_, ?_, ?_⟩
  · intro h
    simp [Session.should_process_batch, h]
  · intro hne t ht hle
    simp [Session.should_process_batch, List.isEmpty_iff, hne, ht, hle]
  · intro hne hcase
    rcases hcase with h | ⟨t, ht, hlt⟩
    · simp [Session.should_process_batch, List.isEmpty_iff, hne, h]
    · simp [Session.should_process_batch, List.isEmpty_iff, hne, ht, not_le.mpr hlt]

/-- Witness for C4 at a concrete state: a session with one pending message, no
batch deadline, whose last activity was 3 seconds ago, flushes with a 2-second
batch delay. -/
theorem should_process_batch_decision_witness :
    ((Session.init 0).add_pending_message 7 10).pending_messages ≠ [] ∧
    ((Session.init 0).add_pending_message 7 10).should_process_batch 2 40 13 = true := by
  refine ⟨by decide, ?_⟩
  have h := (should_process_batch_decision ((Session.init 0).add_pending_message 7 10)
    2 40 13).2.2 (by decide) (Or.inl rfl)
  exact h.mpr (by norm_num [Session.add_pending_message, Session.init])

/-! ## C7: draining the pending queue -/

/-- Pending messages survive any further sequence of `add_pending_message`
calls: the queue only ever grows at the tail. -/
theorem mem_pending_foldl_add (l : List (Msg × DT)) (s : Session) (m : Msg)
    (h : m ∈ s.pending_messages) :
    m ∈ (l.foldl (fun t p => t.add_pending_message p.1 p.2) s).pending_messages := by
  induction l generalizing s with
  | nil => exact h
  | cons p rest ih =>
      exact ih _ (by simp [Session.add_pending_message, h])

/-- **C7.** `clear_pending_messages` returns the pending messages in insertion
order and empties the queue; a second immediate clear returns the empty
sequence; and a message added via `add_pending_message` strictly after a
clear is contained in the result of the next clear, whatever further
messages are added in between. -/
theorem clear_pending_messages_drain (s : Session) :
    (s.clear_pending_messages.1 = s.pending_messages ∧
      s.clear_pending_messages.2.pending_messages = []) ∧
    s.clear_pending_messages.2.clear_pending_messages.1 = [] ∧
    (∀ (m : Msg) (now : DT) (later : List (Msg × DT)),
      m ∈ (later.foldl (fun t p => t.add_pending_message p.1 p.2)
        (s.clear_pending_messages.2.add_pending_message m now)).clear_pending_messages.1) := by
  refine ⟨⟨rfl, rfl⟩, rfl, fun m now later => ?_⟩
  exact mem_pending_foldl_add later _ m (by simp [Session.add_pending_message])

/-! ## C8: `batch_processing_timeout_at` is set iff `is_processing` -/

/-- The session-level transition methods, as opaque operations.  `checkBatch`
(`should_process_batch`) is a pure query and leaves the state unchanged;
`updateRL` keeps the state reached even when the call raises `ValueError`
(the Python object retains the mutations made before the raise). -/
inductive SessionOp where
  | addPending (m : Msg) (now : DT)
  | clearPending
  | updateRL (max_per_minute cooldown : ℕ) (now : DT)
  | checkBatch (delay maxw : ℚ) (now : DT)
  | startBatch (maxw : ℚ) (now : DT)
  | finishBatch

/-- Apply one session method to the state. -/
def SessionOp.apply (s : Session) : SessionOp → Session
  | .addPending m now => s.add_pending_message m now
  | .clearPending => s.clear_pending_messages.2
  | .updateRL maxN cd now => (s.update_rate_limiting maxN cd now).1
  | .checkBatch _ _ _ => s
  | .startBatch maxw now => s.start_batch_processing maxw now
  | .finishBatch => s.finish_batch_processing

/-- Run a sequence of session methods from the freshly created session. -/
def runSessionOps (t0 : DT) (ops : List SessionOp) : Session :=
  ops.foldl SessionOp.apply (Session.init t0)

/-- `update_rate_limiting` never touches the batching fields. -/
theorem update_rate_limiting_preserves_batch_fields
    (s : Session) (maxN cd : ℕ) (now : DT) :
    (s.update_rate_limiting maxN cd now).1.is_processing = s.is_processing ∧
    (s.update_rate_limiting maxN cd now).1.batch_processing_timeout_at =
      s.batch_processing_timeout_at := by
  unfold Session.update_rate_limiting
  dsimp only
  constructor <;> (repeat' split) <;> rfl

/-- One step preserves the invariant `batch_processing_timeout_at` set iff
`is_processing`. -/
theorem sessionOp_preserves_batch_inv (s : Session) (op : SessionOp)
    (h : s.batch_processing_timeout_at.isSome = s.is_processing) :
    (op.apply s).batch_processing_timeout_at.isSome = (op.apply s).is_processing := by
  cases op with
  | addPending m now => simpa [SessionOp.apply, Session.add_pending_message] using h
  | clearPending => simpa [SessionOp.apply, Session.clear_pending_messages] using h
  | updateRL maxN cd now =>
      have hp := update_rate_limiting_preserves_batch_fields s maxN cd now
      simpa [SessionOp.apply, hp.1, hp.2] using h
  | checkBatch delay maxw now => simpa [SessionOp.apply] using h
  | startBatch maxw now => simp [SessionOp.apply, Session.start_batch_processing]
  | finishBatch => simp [SessionOp.apply, Session.finish_batch_processing]

/-- **C8.** Along every sequence of session transition methods starting from
the initial state, `batch_processing_timeout_at` is non-null exactly when
`is_processing` is true. -/
theorem batch_timeout_iff_processing (t0 : DT) (ops : List SessionOp) :
    (runSessionOps t0 ops).batch_processing_timeout_at.isSome =
      (runSessionOps t0 ops).is_processing := by
  suffices h : ∀ (s : Session), s.batch_processing_timeout_at.isSome = s.is_processing →
      (ops.foldl SessionOp.apply s).batch_processing_timeout_at.isSome =
        (ops.foldl SessionOp.apply s).is_processing from
    h (Session.init t0) rfl
  induction ops with
  | nil => intro s h; exact h
  | cons op rest ih =>
      intro s h
      exact ih _ (sessionOp_preserves_batch_inv s op h)

/-! ## C2 / C6: the rate-limit trigger raises `ValueError`

The trigger path runs
`now.replace(second=now.second + cooldown_seconds, microsecond=0)`, which
raises `ValueError` whenever `now.second + cooldown_seconds > 59` — in
particular on every trigger under the default `cooldown_seconds = 60`.
(`start_batch_processing` in the same file carries a comment fixing exactly
this pattern with `timedelta` because the old code "could create invalid
datetime objects".) -/

/-- **C2.** At the failing input `now = 30` (a datetime with `second = 30`),
`cooldown_seconds = 60`, `max_messages_per_minute = 0`: the trigger path does
not return `False` with `rate_limit_until = now + cooldown_seconds`; instead
`datetime.replace` raises `ValueError` (modelled `none`), leaving
`is_rate_limited` already set and `rate_limit_until` unset. -/
theorem update_rate_limiting_trigger_raises :
    ((Session.init 0).update_rate_limiting 0 60 30).2 = none ∧
    ((Session.init 0).update_rate_limiting 0 60 30).1.is_rate_limited = true ∧
    ((Session.init 0).update_rate_limiting 0 60 30).1.rate_limit_until = none := by
  refine ⟨?_, ?_, ?_⟩ <;>
    norm_num [Session.update_rate_limiting, Session.init, dtReplaceSecond, dtSecond,
      dtMinuteStart]

/-- **C6.** With `max_messages_per_minute = 1` and the default
`cooldown_seconds = 60`, in a fresh minute window starting at `now = 0`: the
first call is admitted (`True`), confirming the strictly-greater threshold;
but the second call in the same window, which the claim says returns `False`
and activates the rate limit, instead raises `ValueError` (modelled `none`)
while setting `is_rate_limited` — the activation is reached but the call does
not return `False`. -/
theorem rate_limit_threshold_second_call_raises :
    ((Session.init 0).update_rate_limiting 1 60 0).2 = some true ∧
    (((Session.init 0).update_rate_limiting 1 60 0).1.update_rate_limiting 1 60 0).2 =
      none ∧
    (((Session.init 0).update_rate_limiting 1 60 0).1.update_rate_limiting
      1 60 0).1.is_rate_limited = true := by
  refine ⟨?_, ?_, ?_⟩ <;>
    norm_num [Session.update_rate_limiting, Session.init, dtReplaceSecond, dtSecond,
      dtMinuteStart]

/-! ## CircuitBreaker

From `agentle/agents/apis/circuit_breaker.py` (configuration fields from
`agentle/agents/apis/request_config.py`). -/

/-- `CircuitBreakerState`. -/
inductive CBState where
  | closed
  | opened
  | halfOpen
  deriving Repr, DecidableEq

/-- The `RequestConfig` fields the circuit breaker and the rate limiter read. -/
structure RequestConfig where
  circuit_breaker_failure_threshold : ℕ
  circuit_breaker_recovery_timeout : ℚ
  circuit_breaker_success_threshold : ℕ
  rate_limit_calls : ℕ
  rate_limit_period : ℚ
  deriving Repr, DecidableEq

/-- The mutable state of a `CircuitBreaker`. -/
structure CircuitBreaker where
  state : CBState
  failure_count : ℕ
  success_count : ℕ
  last_failure_time : Option DT
  deriving Repr, DecidableEq

namespace CircuitBreaker

/-- A freshly constructed breaker: CLOSED, zero counters, no failure yet. -/
def init : CircuitBreaker where
  state := .closed
  failure_count := 0
  success_count := 0
  last_failure_time := none

/-- `CircuitBreaker._on_success`. -/
def onSuccess (cfg : RequestConfig) (cb : CircuitBreaker) : CircuitBreaker :=
  match cb.state with
  | .halfOpen =>
      let cb := { cb with success_count := cb.success_count + 1 }
      if cfg.circuit_breaker_success_threshold ≤ cb.success_count then
        { cb with state := .closed, failure_count := 0 }
      else cb
  | .closed => { cb with failure_count := 0 }
  | .opened => cb

/-- `CircuitBreaker._on_failure`; `now` is the `time.time()` taken inside. -/
def onFailure (cfg : RequestConfig) (cb : CircuitBreaker) (now : DT) : CircuitBreaker :=
  let cb := { cb with failure_count := cb.failure_count + 1,
                      last_failure_time := some now }
  match cb.state with
  | .halfOpen => { cb with state := .opened }
  | .closed =>
      if cfg.circuit_breaker_failure_threshold ≤ cb.failure_count then
        { cb with state := .opened }
      else cb
  | .opened => cb

/-- The outcome of `CircuitBreaker.call`: the distinguished
`CircuitBreakerError` carrying the remaining wait, or the wrapped operation
actually running (an operation failure is re-raised to the caller). -/
inductive CallOutcome where
  | rejected (remaining : ℚ)
  | ran (success : Bool)
  deriving Repr, DecidableEq

/-- The body of `call` after the open-state gate: run the operation and
route the result through `_on_success` / `_on_failure`.  `ok` is whether the
operation succeeds and `tEnd` the time at which it finishes. -/
def exec (cfg : RequestConfig) (cb : CircuitBreaker) (ok : Bool) (tEnd : DT) :
    CircuitBreaker × CallOutcome :=
  if ok then (cb.onSuccess cfg, .ran true) else (cb.onFailure cfg tEnd, .ran false)

/-- `CircuitBreaker.call`.  When OPEN with a recorded last failure: either
fail fast with the remaining wait, or (recovery timeout elapsed) move to
HALF_OPEN with the success counter reset and run the operation.  A `None`
(falsy) `last_failure_time` skips the gate, as in the source. -/
def call (cfg : RequestConfig) (cb : CircuitBreaker) (now : DT) (ok : Bool)
    (tEnd : DT) : CircuitBreaker × CallOutcome :=
  if cb.state = .opened then
    match cb.last_failure_time with
    | some t =>
        if cfg.circuit_breaker_recovery_timeout ≤ now - t then
          exec cfg { cb with state := .halfOpen, success_count := 0 } ok tEnd
        else (cb, .rejected (cfg.circuit_breaker_recovery_timeout - (now - t)))
    | none => exec cfg cb ok tEnd
  else exec cfg cb ok tEnd

/-- A sequence of calls whose wrapped operation always fails, at the given
times (each call's gate check and failure record use the same instant). -/
def iterateFail (cfg : RequestConfig) (cb : CircuitBreaker) (ts : List DT) :
    CircuitBreaker :=
  ts.foldl (fun c t => (call cfg c t false t).1) cb

end CircuitBreaker

/-- A failing call from CLOSED runs the operation and either opens the
circuit (threshold reached) or stays CLOSED with the count incremented. -/
theorem call_fail_closed (cfg : RequestConfig) (cb : CircuitBreaker) (t : DT)
    (h : cb.state = .closed) :
    (CircuitBreaker.call cfg cb t false t).1 =
      (if cfg.circuit_breaker_failure_threshold ≤ cb.failure_count + 1 then
        { cb with state := .opened, failure_count := cb.failure_count + 1,
                  last_failure_time := some t }
      else
        { cb with failure_count := cb.failure_count + 1,
                  last_failure_time := some t }) := by
  simp only [CircuitBreaker.call, CircuitBreaker.exec, CircuitBreaker.onFailure, h]
  split <;> split <;> simp_all

/-- From CLOSED, a run of consecutive failing calls that brings the failure
count up to the threshold leaves the breaker OPEN. -/
theorem iterateFail_opens (cfg : RequestConfig) :
    ∀ (ts : List DT) (cb : CircuitBreaker), cb.state = .closed → ts ≠ [] →
      cb.failure_count + ts.length = cfg.circuit_breaker_failure_threshold →
      (CircuitBreaker.iterateFail cfg cb ts).state = .opened := by
  intro ts
  induction ts with
  | nil => intro cb _ hne _; exact absurd rfl hne
  | cons t rest ih =>
      intro cb hclosed _ hcount
      rcases List.eq_nil_or_concat rest with hrest | _
      · subst hrest
        simp only [CircuitBreaker.iterateFail, List.foldl_cons, List.foldl_nil]
        rw [call_fail_closed cfg cb t hclosed]
        have : cfg.circuit_breaker_failure_threshold ≤ cb.failure_count + 1 := by
          simp at hcount; omega
        simp [this]
      · have hrest_ne : rest ≠ [] := by
          rintro rfl
          simp_all
        have hlt : cb.failure_count + 1 < cfg.circuit_breaker_failure_threshold := by
          have : rest.length ≠ 0 := by simpa using fun h => hrest_ne (List.eq_nil_of_length_eq_zero h)
          simp at hcount; omega
        simp only [CircuitBreaker.iterateFail, List.foldl_cons]
        rw [call_fail_closed cfg cb t hclosed, if_neg (by omega)]
        exact ih _ (by simpa using hclosed) hrest_ne (by simp at hcount ⊢; omega)

/-- **C5.** (a) From the fresh CLOSED breaker, `failure_threshold ≥ 1`
consecutive failed calls leave the circuit OPEN.  (b) While OPEN with the
recovery timeout not yet elapsed since the last failure, `call` rejects with
the distinguished circuit-open error carrying the remaining wait, without
running the operation and without changing the state.  (c) Once the recovery
timeout has elapsed, the breaker moves to HALF_OPEN with the success counter
reset and the operation is executed. -/
theorem circuit_breaker_call_spec (cfg : RequestConfig) :
    (∀ ts : List DT, 1 ≤ cfg.circuit_breaker_failure_threshold →
      ts.length = cfg.circuit_breaker_failure_threshold →
      (CircuitBreaker.iterateFail cfg .init ts).state = .opened) ∧
    (∀ (cb : CircuitBreaker) (t now tEnd : DT) (ok : Bool),
      cb.state = .opened → cb.last_failure_time = some t →
      now - t < cfg.circuit_breaker_recovery_timeout →
      CircuitBreaker.call cfg cb now ok tEnd =
        (cb, .rejected (cfg.circuit_breaker_recovery_timeout - (now - t)))) ∧
    (∀ (cb : CircuitBreaker) (t now tEnd : DT) (ok : Bool),
      cb.state = .opened → cb.last_failure_time = some t →
      cfg.circuit_breaker_recovery_timeout ≤ now - t →
      CircuitBreaker.call cfg cb now ok tEnd =
        CircuitBreaker.exec cfg { cb with state := .halfOpen, success_count := 0 }
          ok tEnd ∧
      (CircuitBreaker.call cfg cb now ok tEnd).2 = .ran ok) := by
  refine ⟨?_, ?_, ?_⟩
  · intro ts h1 hlen
    apply iterateFail_opens cfg ts .init rfl
    · rintro rfl
      simp at hlen
      omega
    · simpa [CircuitBreaker.init] using hlen
  · intro cb t now tEnd ok hst hlf hlt
    simp [CircuitBreaker.call, hst, hlf, not_le.mpr hlt]
  · intro cb t now tEnd ok hst hlf hle
    have h : CircuitBreaker.call cfg cb now ok tEnd =
        CircuitBreaker.exec cfg { cb with state := .halfOpen, success_count := 0 }
          ok tEnd := by
      simp [CircuitBreaker.call, hst, hlf, hle]
    refine ⟨h, ?_⟩
    rw [h]
    cases ok <;> simp [CircuitBreaker.exec]

/-- Concrete circuit-breaker configuration for the C5 witness: threshold 2
failures, 10-second recovery, 1 success to re-close. -/
def cfgCB : RequestConfig where
  circuit_breaker_failure_threshold := 2
  circuit_breaker_recovery_timeout := 10
  circuit_breaker_success_threshold := 1
  rate_limit_calls := 100
  rate_limit_period := 60

/-- An OPEN breaker whose last failure was at time 1, for the C5 witness. -/
def cbOpen : CircuitBreaker where
  state := .opened
  failure_count := 2
  success_count := 0
  last_failure_time := some 1

/-- Witness for C5: two failing calls (at times 0 and 1) open the fresh
breaker; at time 5 a call is rejected with 6 seconds remaining; at time 11
the operation runs. -/
theorem circuit_breaker_call_spec_witness :
    (CircuitBreaker.iterateFail cfgCB .init [0, 1]).state = .opened ∧
    CircuitBreaker.call cfgCB cbOpen 5 true 5 =
      (cbOpen, .rejected 6) ∧
    (CircuitBreaker.call cfgCB cbOpen 11 true 11).2 = .ran true := by
  refine ⟨?_, ?_, ?_⟩
  · exact (circuit_breaker_call_spec cfgCB).1 [0, 1] (by norm_num [cfgCB])
      (by norm_num [cfgCB])
  · have h := (circuit_breaker_call_spec cfgCB).2.1 cbOpen 1 5 5 true rfl rfl
      (by norm_num [cfgCB])
    rw [h]
    norm_num [cfgCB]
  · exact ((circuit_breaker_call_spec cfgCB).2.2 cbOpen 1 11 11 true rfl rfl
      (by norm_num [cfgCB])).2

/-! ## C1: RateLimiter.acquire self-deadlocks on a full window

From `agentle/agents/apis/rate_limiter.py`.  The whole body of `acquire` —
including the `return await self.acquire()` retry after the sleep — runs
inside `async with self._lock:`, and `asyncio.Lock` is not reentrant: the
recursive call's `async with self._lock:` waits for a lock the same task
still holds, so it blocks forever.  The model threads the lock explicitly:
`lockHeld` says whether the calling task already holds `self._lock` on
entry; awaiting the held lock never completes, modelled as `none`.  `acquire`
re-reads `time.time()` after sleeping; in the model the clock advances by
exactly the sleep duration.  `none` also models fuel exhaustion and the
`IndexError` that `self.calls[0]` would raise on an empty list (reachable
only when `rate_limit_calls = 0`). -/

namespace RateLimiter

/-- `RateLimiter.acquire`, acting on the `calls` window at time `now`, with
`lockHeld` the state of the task's own hold on the non-reentrant
`self._lock`.  The top-level call starts with `lockHeld = false` and takes
the lock; the recursive retry is made while the outer frame still holds it,
so it re-enters with `lockHeld = true` and blocks forever (`none`).  A
successful return is the new `calls` list, ending with the freshly recorded
timestamp. -/
def acquire (cfg : RequestConfig) : ℕ → Bool → List DT → DT → Option (List DT)
  | 0, _, _, _ => none
  | fuel + 1, lockHeld, calls, now =>
      -- async with self._lock: a non-reentrant lock already held by this
      -- task never becomes available to it again
      if lockHeld then none
      else
        -- Remove old calls outside the window
        let retained := calls.filter fun t => decide (now - cfg.rate_limit_period < t)
        -- Check if we are at the limit
        if cfg.rate_limit_calls ≤ retained.length then
          match retained with
          | [] => none   -- IndexError: self.calls[0] on an empty list
          | oldest :: _ =>
              let wait := cfg.rate_limit_period - (now - oldest)
              if 0 < wait then
                -- Recursively try again — still inside the with-block,
                -- so the lock is held across the retry
                acquire cfg fuel true retained (now + wait)
              else some (retained ++ [now])
        else some (retained ++ [now])

end RateLimiter

/-- Rate-limiter configuration for C1: 1 call per 10-second period. -/
def cfgRL : RequestConfig where
  circuit_breaker_failure_threshold := 5
  circuit_breaker_recovery_timeout := 60
  circuit_breaker_success_threshold := 2
  rate_limit_calls := 1
  rate_limit_period := 10

/-- A call that enters `acquire` while its own task already holds
`self._lock` never returns, however much fuel it is given. -/
theorem acquire_lock_held_blocks (cfg : RequestConfig) (fuel : ℕ)
    (calls : List DT) (now : DT) :
    RateLimiter.acquire cfg fuel true calls now = none := by
  cases fuel <;> rfl

/-- **C1.** At the failing input — limit 1 call per 10 seconds, window
holding the in-window call at time 0, a caller arriving at time 5 — the full
window makes `acquire` sleep and then retry recursively while its own task
still holds the non-reentrant `asyncio.Lock`, so the caller never proceeds
(no fuel suffices), contradicting the claim that every caller eventually
records a timestamp and returns.  By contrast the same caller at time 25,
when the window has emptied, immediately records its timestamp: only the
wait path — exactly the case the claim is about — deadlocks. -/
theorem acquire_full_window_deadlocks :
    (∀ fuel : ℕ, RateLimiter.acquire cfgRL fuel false [0] 5 = none) ∧
    RateLimiter.acquire cfgRL 1 false [0] 25 = some [25] := by
  constructor
  · intro fuel
    cases fuel with
    | zero => rfl
    | succ n =>
        rw [RateLimiter.acquire]
        norm_num [cfgRL, List.filter]
        exact acquire_lock_held_blocks cfgRL n [0] _
  · rw [RateLimiter.acquire]
    norm_num [cfgRL, List.filter]

/-! ## C3: the flush path always clears the processing flag

`WhatsAppBot._process_message_batch` is a `try/except/finally`; each
effectful step that may raise is driven by a Boolean fault flag, and the
handler/finally control flow is encoded explicitly.  The returned Boolean is
whether an exception escapes the method (the bare `except` swallows the try
block's exception unless `_send_error_message` itself raises; the `finally`
block's `update_session` may raise on the way out). -/

/-- Which effectful steps of `_process_message_batch` raise. -/
structure FlushFaults where
  typing : Bool      -- provider.send_typing_indicator
  convert : Bool     -- _convert_message_batch_to_input
  agent : Bool       -- _process_with_agent
  send : Bool        -- _send_response
  upd_empty : Bool   -- provider.update_session on the empty-queue early return
  upd_try : Bool     -- provider.update_session at the end of the try block
  send_err : Bool    -- _send_error_message in the except block
  upd_fin : Bool     -- provider.update_session in the finally block
  deriving Repr, DecidableEq

/-- `WhatsAppBot._process_message_batch`: final session state and whether an
exception escapes. -/
def process_message_batch (s : Session) (now : DT) (f : FlushFaults) :
    Session × Bool :=
  if s.pending_messages.isEmpty then
    (s.finish_batch_processing, f.upd_empty)
  else
    -- try block: state reached and whether it raised
    let tryRes : Session × Bool :=
      if f.typing then (s, true)
      else
        let drained := s.clear_pending_messages.1
        let s1 := s.clear_pending_messages.2.finish_batch_processing
        if f.convert then (s1, true)
        else if f.agent then (s1, true)
        else if f.send then (s1, true)
        else
          let s2 := { s1 with message_count := s1.message_count + drained.length,
                              last_activity := now }
          (s2, f.upd_try)
    -- except block: swallows the exception unless _send_error_message raises
    let excRaised : Bool := tryRes.2 && f.send_err
    -- finally block: always runs
    (tryRes.1.finish_batch_processing, excRaised || f.upd_fin)

/-- **C3.** For every session, time and combination of raising steps,
`_process_message_batch` leaves `is_processing = false` (the `finally`
guarantee), so a later message can start a fresh batch; and once the queue
has been drained (every step from conversion onwards runs after the drain)
the drained messages are never re-queued: the final queue is empty unless
the failure happened before the drain (the typing indicator). -/
theorem process_message_batch_finishes (s : Session) (now : DT) (f : FlushFaults) :
    (process_message_batch s now f).1.is_processing = false ∧
    (process_message_batch s now f).1.pending_messages =
      (if s.pending_messages.isEmpty || f.typing then s.pending_messages else []) := by
  cases hemp : s.pending_messages.isEmpty <;> cases ht : f.typing <;>
    simp only [process_message_batch, hemp, ht] <;>
    (repeat' split) <;>
    simp_all [Session.finish_batch_processing, Session.clear_pending_messages,
      List.isEmpty_iff]

/-! ## C9: what `message_count` counts

Model of the `message_count` accounting across `WhatsAppBot.handle_message`
(welcome-message branch, batching branch, immediate branch) and the batch
flush.  Two ghost fields track the ground truth: `delivered`, the number of
messages actually handed to downstream agent processing, and `welcome_sent`,
whether the one-off welcome message went out. -/

/-- Bot-level state: the session plus ghost counters. -/
structure BotState where
  session : Session
  delivered : ℕ
  welcome_sent : Bool
  deriving Repr, DecidableEq

/-- `WhatsAppBot.handle_message` restricted to its session-state effects.
`admitted` is the spam-protection verdict, `batching` the
`enable_message_batching` config, `ok` whether immediate processing (when
used) succeeds, `welcome` whether `config.welcome_message` is set (truthy).
The welcome branch increments `message_count` by 1 "to prevent sending
welcome message again"; the immediate branch is `_process_single_message`,
which adds 1 only after a successful send. -/
def handleMessage (welcome : Bool) (maxw : ℚ) (st : BotState)
    (admitted batching ok : Bool) (m : Msg) (now : DT) : BotState :=
  if !admitted then st
  else
    let st :=
      if decide (st.session.message_count = 0) && welcome then
        { st with
            session := { st.session with
              message_count := st.session.message_count + 1 },
            welcome_sent := true }
      else st
    if batching then
      let s := st.session.add_pending_message m now
      let s := if !s.is_processing then s.start_batch_processing maxw now else s
      { st with session := s }
    else if ok then
      { st with
          session := { st.session with
            message_count := st.session.message_count + 1,
            last_activity := now },
          delivered := st.delivered + 1 }
    else st

/-- The `message_count` effect of `_process_message_batch`: on a successful
flush, the count grows by the size of the drained batch; on a failing flush
nothing is counted (and nothing is delivered). -/
def flushBatch (st : BotState) (ok : Bool) (now : DT) : BotState :=
  if st.session.pending_messages.isEmpty then
    { st with session := st.session.finish_batch_processing }
  else
    let drained := st.session.clear_pending_messages.1
    let s := st.session.clear_pending_messages.2.finish_batch_processing
    if ok then
      { st with
          session := { s with message_count := s.message_count + drained.length,
                              last_activity := now },
          delivered := st.delivered + drained.length }
    else { st with session := s }

/-- The events that touch `message_count`. -/
inductive BotEvent where
  | recv (admitted batching ok : Bool) (m : Msg) (now : DT)
  | flush (ok : Bool) (now : DT)

/-- One bot step. -/
def botStep (welcome : Bool) (maxw : ℚ) (st : BotState) : BotEvent → BotState
  | .recv a b ok m now => handleMessage welcome maxw st a b ok m now
  | .flush ok now => flushBatch st ok now

/-- Fresh bot state over a fresh session. -/
def botInit (t0 : DT) : BotState where
  session := Session.init t0
  delivered := 0
  welcome_sent := false

/-- Run a sequence of bot events from the fresh state. -/
def botRun (welcome : Bool) (maxw : ℚ) (t0 : DT) (es : List BotEvent) : BotState :=
  es.foldl (botStep welcome maxw) (botInit t0)

/-- **C9, counterexample.** With a welcome message configured, the very first
admitted message (batching enabled, so nothing is processed downstream yet)
already leaves `message_count = 1` while zero messages have been delivered
downstream: the welcome-message branch of `handle_message` is a further
increment path, so `message_count` does not count exactly the delivered
messages. -/
theorem message_count_counts_welcome_message :
    (botRun true 40 0 [.recv true true true 5 0]).session.message_count ≠
      (botRun true 40 0 [.recv true true true 5 0]).delivered := by
  simp [botRun, botInit, botStep, handleMessage, Session.init,
    Session.add_pending_message, Session.start_batch_processing]

/-- One step preserves `message_count = delivered + welcome_sent` and never
decreases `message_count`. -/
theorem botStep_count_invariant (welcome : Bool) (maxw : ℚ) (st : BotState)
    (e : BotEvent)
    (h : st.session.message_count = st.delivered + (if st.welcome_sent then 1 else 0)) :
    (botStep welcome maxw st e).session.message_count =
      (botStep welcome maxw st e).delivered +
        (if (botStep welcome maxw st e).welcome_sent then 1 else 0) ∧
    st.session.message_count ≤ (botStep welcome maxw st e).session.message_count := by
  cases e with
  | recv a b ok m now =>
      simp only [botStep, handleMessage]
      repeat' split
      all_goals
        simp_all [Session.add_pending_message, Session.start_batch_processing]
  | flush ok now =>
      simp only [botStep, flushBatch]
      repeat' split
      all_goals
        simp_all [Session.finish_batch_processing, Session.clear_pending_messages]
      all_goals omega

/-- **C9, amended.** Along every run of the bot, `message_count` equals the
number of messages delivered to downstream processing plus one for the
welcome message when it has been sent; and no step ever decreases it.  In
particular the only increment paths are the flushed batch (by its size), the
immediately-processed message (by 1) and the one-off welcome message. -/
theorem message_count_eq_delivered_plus_welcome (welcome : Bool) (maxw : ℚ)
    (t0 : DT) (es : List BotEvent) :
    ((botRun welcome maxw t0 es).session.message_count =
      (botRun welcome maxw t0 es).delivered +
        (if (botRun welcome maxw t0 es).welcome_sent then 1 else 0)) ∧
    (∀ (st : BotState) (e : BotEvent),
      st.session.message_count ≤ (botStep welcome maxw st e).session.message_count) := by
  constructor
  · suffices h : ∀ (st : BotState),
        st.session.message_count = st.delivered + (if st.welcome_sent then 1 else 0) →
        (es.foldl (botStep welcome maxw) st).session.message_count =
          (es.foldl (botStep welcome maxw) st).delivered +
            (if (es.foldl (botStep welcome maxw) st).welcome_sent then 1 else 0) from
      h (botInit t0) rfl
    induction es with
    | nil => intro st h; exact h
    | cons e rest ih =>
        intro st h
        exact ih _ (botStep_count_invariant welcome maxw st e h).1
  · intro st e
    by_cases h : st.session.message_count =
        st.delivered + (if st.welcome_sent then 1 else 0)
    · exact (botStep_count_invariant welcome maxw st e h).2
    · -- monotonicity holds for every state, invariant or not
      cases e with
      | recv a b ok m now =>
          simp only [botStep, handleMessage]
          repeat' split
          all_goals
            simp_all [Session.add_pending_message, Session.start_batch_processing]
      | flush ok now =>
          simp only [botStep, flushBatch]
          repeat' split
          all_goals
            simp_all [Session.finish_batch_processing, Session.clear_pending_messages]

/-! ## C10: `_split_message` chunk bounds

From `WhatsAppBot._split_message`.  Python `len` on `str` counts code points,
as `String.length` does on `String`. -/

/-- The hard split `for i in range(0, len(msg), k): msg[i:i+k]`, on the
character list.  Meaningful for `k ≥ 1` (in Python, `range` with step 0
raises `ValueError`; the function only reaches this loop with the positive
`max_message_length` as step). -/
def hardSplitChunks (k : ℕ) : List Char → List (List Char)
  | [] => []
  | c :: rest => (c :: rest.take (k - 1)) :: hardSplitChunks k (rest.drop (k - 1))
  termination_by l => l.length
  decreasing_by simp only [List.length_cons, List.length_drop]; omega

/-- The paragraph-packing loop of `_split_message`: greedily joins paragraphs
with a blank line while the joined length (`+2` for the separator) fits. -/
def packGo (maxLen : ℕ) (current : String) (messages : List String) :
    List String → List String
  | [] => if current.isEmpty then messages else messages ++ [current]
  | para :: rest =>
      if current.length + para.length + 2 ≤ maxLen then
        packGo maxLen
          (if current.isEmpty then current ++ para else current ++ "\n\n" ++ para)
          messages rest
      else
        packGo maxLen para
          (if current.isEmpty then messages else messages ++ [current]) rest

/-- `WhatsAppBot._split_message`: short texts pass through unchanged; long
texts are split on blank lines, greedily re-packed, and any still-oversized
message is hard-split into `max_message_length`-character slices. -/
def split_message (maxLen : ℕ) (text : String) : List String :=
  if text.length ≤ maxLen then [text]
  else
    let paragraphs := text.splitOn "\n\n"
    let messages := packGo maxLen "" [] paragraphs
    messages.flatMap fun msg =>
      if msg.length ≤ maxLen then [msg]
      else (hardSplitChunks maxLen msg.toList).map fun l => String.mk l

/-- Every slice the hard split produces has at most `k` characters
(for `k ≥ 1`). -/
theorem hardSplitChunks_chunk_le (k : ℕ) (hk : 1 ≤ k) :
    ∀ (n : ℕ) (l : List Char), l.length ≤ n →
      ∀ c ∈ hardSplitChunks k l, c.length ≤ k := by
  intro n
  induction n with
  | zero =>
      intro l hl c hc
      rw [List.length_eq_zero.mp (Nat.le_zero.mp hl)] at hc
      simp [hardSplitChunks] at hc
  | succ n ih =>
      intro l hl c hc
      match l with
      | [] => simp [hardSplitChunks] at hc
      | a :: rest =>
          rw [hardSplitChunks] at hc
          rcases List.mem_cons.mp hc with rfl | hc
          · have := List.length_take_le (k - 1) rest
            simp only [List.length_cons]
            omega
          · have hdrop : (rest.drop (k - 1)).length ≤ n := by
              simp only [List.length_cons] at hl
              have := List.length_drop (k - 1) rest
              omega
            exact ih _ hdrop c hc

/-- **C10.** For every text and every positive `max_message_length`, every
chunk `_split_message` returns has at most `max_message_length` characters,
and a text that already fits is returned as the one-element sequence
containing exactly the original text. -/
theorem split_message_spec (text : String) (maxLen : ℕ) (hpos : 1 ≤ maxLen) :
    (∀ chunk ∈ split_message maxLen text, chunk.length ≤ maxLen) ∧
    (text.length ≤ maxLen → split_message maxLen text = [text]) := by
  constructor
  · intro chunk hchunk
    by_cases hshort : text.length ≤ maxLen
    · simp only [split_message, if_pos hshort, List.mem_singleton] at hchunk
      subst hchunk
      exact hshort
    · simp only [split_message, if_neg hshort, List.mem_flatMap] at hchunk
      obtain ⟨msg, _, hmem⟩ := hchunk
      by_cases hmsg : msg.length ≤ maxLen
      · simp only [if_pos hmsg, List.mem_singleton] at hmem
        subst hmem
        exact hmsg
      · simp only [if_neg hmsg, List.mem_map] at hmem
        obtain ⟨l, hl, rfl⟩ := hmem
        have : l.length ≤ maxLen :=
          hardSplitChunks_chunk_le maxLen hpos msg.toList.length msg.toList
            le_rfl l hl
        simpa [String.length] using this
  · intro hshort
    simp [split_message, hshort]

/-- Witness for C10: with limit 5, the already-short text "ab" is returned
unchanged as a singleton. -/
theorem split_message_spec_witness :
    (1 ≤ 5 ∧ split_message 5 "ab" = ["ab"]) :=
  ⟨by norm_num, (split_message_spec "ab" 5 (by norm_num)).2 (by decide)⟩

end Agentle
